import Mathlib

/-!
Shallow embedding of `src/main.py` (brand63-autoblog): product selection,
season logic, generation-response handling, article assembly and the
publish payload. Text is modelled as `List Char` (Python `str`), machine
randomness (`random.sample`, `random.choice`) as nondeterministic choice
relations, and the HTTP boundary (Shopify / OpenAI responses) as data
carried by a `Store` record or by the `RawResponse` type.
-/

namespace Brand63

/-- Python `str` is modelled as a list of characters. -/
abbrev Str := List Char

/-- The ASCII single-quote character used by the HTML templates
(written via its code point to keep the development plain). -/
def q : Char := Char.ofNat 39

/-- Python whitespace test used by `str.strip`. -/
def isSpaceChar (c : Char) : Bool := c = ' ' ∨ c = '\t' ∨ c = '\n' ∨ c = '\r'

/-- Python `str.strip()`: drop whitespace from both ends. -/
def stripChars (cs : Str) : Str :=
  ((cs.dropWhile isSpaceChar).reverse.dropWhile isSpaceChar).reverse

/-- Python `str.lower()` (ASCII letters suffice for the handles involved). -/
def lowerChars (cs : Str) : Str := cs.map Char.toLower

/-- Python `s.split(sep)` for a one-character separator:
`"".split(",") = [""]`, empty pieces are kept. -/
def splitOnChar (sep : Char) : Str → List Str
  | [] => [[]]
  | c :: cs =>
    if c = sep then [] :: splitOnChar sep cs
    else
      match splitOnChar sep cs with
      | [] => [[c]]
      | p :: ps => (c :: p) :: ps

/-- Python `sep.join(parts)` for a one-character separator. -/
def joinChar (sep : Char) : List Str → Str
  | [] => []
  | [p] => p
  | p :: ps => p ++ sep :: joinChar sep ps

/-! ## Dates and season windows (`now_pacific`, `within_days`, `get_season_mode`) -/

/-- A civil calendar date, standing for `datetime.date`. -/
structure PDate where
  year : Int
  month : Nat
  day : Nat
deriving DecidableEq

/-- Gregorian leap-year test. -/
def isLeap (y : Int) : Bool := y % 4 = 0 ∧ (y % 100 ≠ 0 ∨ y % 400 = 0)

/-- Number of days in a month. -/
def daysInMonth (y : Int) (m : Nat) : Nat :=
  if m = 2 then (if isLeap y then 29 else 28)
  else if m = 4 ∨ m = 6 ∨ m = 9 ∨ m = 11 then 30 else 31

/-- The calendar date one day earlier.  `datetime(y, m, d, tzinfo=utc) +
timedelta(hours=-8)` lands at 16:00 of the previous civil day, so its
`.date()` is exactly `prevDay ⟨y, m, d⟩`. -/
def prevDay (d : PDate) : PDate :=
  if d.day > 1 then ⟨d.year, d.month, d.day - 1⟩
  else if d.month > 1 then ⟨d.year, d.month - 1, daysInMonth d.year (d.month - 1)⟩
  else ⟨d.year - 1, 12, 31⟩

/-- Year shifted so the year starts in March (days-from-civil algorithm). -/
def yShift (y : Int) (m : Nat) : Int := if m ≤ 2 then y - 1 else y

/-- 400-year era of a date. -/
def eraOf (y : Int) (m : Nat) : Int :=
  (if 0 ≤ yShift y m then yShift y m else yShift y m - 399) / 400

/-- Year of era. -/
def yoeOf (y : Int) (m : Nat) : Int := yShift y m - eraOf y m * 400

/-- Day of the (March-based) year. -/
def doyOf (m day : Nat) : Int :=
  (153 * (((m : Int) + 9) % 12) + 2) / 5 + (day : Int) - 1

/-- Days since the civil epoch 1970-01-01 (standard days-from-civil
algorithm); used to give exact meaning to Python date subtraction. -/
def toRD (d : PDate) : Int :=
  eraOf d.year d.month * 146097 +
    (yoeOf d.year d.month * 365 + yoeOf d.year d.month / 4 - yoeOf d.year d.month / 100 +
      doyOf d.month d.day) - 719468

/-- `(t - n).days` for two dates. -/
def dateSubDays (t n : PDate) : Int := toRD t - toRD n

/-- Config constant `HOLIDAY_LOOKAHEAD_DAYS = 45`. -/
def HOLIDAY_LOOKAHEAD_DAYS : Int := 45

/-- `within_days(target_date, days)` with the current pacific date `n`
passed explicitly: `0 <= (t - n).days <= days`. -/
def within_days (target : PDate) (days : Int) (n : PDate) : Prop :=
  0 ≤ dateSubDays target n ∧ dateSubDays target n ≤ days

instance (target : PDate) (days : Int) (n : PDate) :
    Decidable (within_days target days n) := by
  unfold within_days; infer_instance

/-- The two season modes the script recognises. -/
inductive SeasonMode where
  | black_history
  | valentines
deriving DecidableEq

/-- `get_season_mode()` with the current pacific date passed explicitly.
February (or the last 15 days of January, measured against the `-8h`
shift of Feb 1) gives Black History mode; otherwise a date within the
45-day lookahead of the shifted Feb 14 gives Valentines mode. -/
def get_season_mode (n : PDate) : Option SeasonMode :=
  if n.month = 2 ∨ (n.month = 1 ∧ dateSubDays (prevDay ⟨n.year, 2, 1⟩) n ≤ 15) then
    some .black_history
  else if within_days (prevDay ⟨n.year, 2, 14⟩) HOLIDAY_LOOKAHEAD_DAYS n then
    some .valentines
  else none

/-! ## Catalog model (`get_products_from_collection`, `get_newest_active_products`,
`get_all_collections`, `get_collection_by_handle`) -/

/-- Config constant `PUBLIC_DOMAIN` (default `"www.brand63.com"`). -/
def PUBLIC_DOMAIN : Str := "www.brand63.com".data

/-- Config constant `NEWEST_POOL_SIZE = 500`. -/
def NEWEST_POOL_SIZE : Nat := 500

/-- Config constant `FRESH_SAMPLE_WINDOW = 120`. -/
def FRESH_SAMPLE_WINDOW : Nat := 120

/-- Config constant `PICKS_PER_POST = 3`. -/
def PICKS_PER_POST : Nat := 3

/-- A raw product record as returned by the Shopify API. -/
structure RawProduct where
  id : Nat
  title : Str
  handle : Str
  created_at : Str
  status : Option Str
  images : List Str
  tags : Str
  vendor : Str
deriving DecidableEq

/-- A product dict as built by the script. -/
structure Product where
  id : Nat
  title : Str
  handle : Str
  created_at : Str
  url : Str
  image : Str
  tags : Str
  vendor : Str
deriving DecidableEq

/-- `imgs[0]["src"] if imgs else None`, with an empty src counting as
falsy (`if not first_img: continue`). -/
def firstImage (p : RawProduct) : Option Str :=
  match p.images with
  | [] => none
  | s :: _ => if s = [] then none else some s

/-- `if p.get("status") and str(p.get("status")).lower() != "active": continue`:
a product is kept when status is absent/empty or lowercases to "active". -/
def statusOk (p : RawProduct) : Bool :=
  match p.status with
  | none => true
  | some s => s = [] ∨ lowerChars s = "active".data

/-- The product dict the script builds from a raw record and its first image. -/
def mkProductWith (p : RawProduct) (img : Str) : Product :=
  { id := p.id, title := p.title, handle := p.handle, created_at := p.created_at,
    url := "https://".data ++ PUBLIC_DOMAIN ++ "/products/".data ++ p.handle,
    image := img, tags := p.tags, vendor := p.vendor }

/-- Body of `get_products_from_collection`: keep active products with an
image, building the product dict. -/
def productsFromRaw (l : List RawProduct) : List Product :=
  l.filterMap fun p =>
    if statusOk p then
      match firstImage p with
      | some img => some (mkProductWith p img)
      | none => none
    else none

/-- Body of `get_newest_active_products`: the API already filters to
active products, the script only drops records without an image. -/
def newestFromRaw (l : List RawProduct) : List Product :=
  l.filterMap fun p =>
    match firstImage p with
    | some img => some (mkProductWith p img)
    | none => none

/-- A collection record (`{"id", "title", "handle"}`). -/
structure CollectionRef where
  id : Nat
  title : Str
  handle : Str
deriving DecidableEq

/-- Handle normalisation `(handle or "").strip().lower()`. -/
def normHandle (s : Str) : Str := lowerChars (stripChars s)

/-- The de-dup-by-handle loop at the end of `get_all_collections`. -/
def dedupByHandle : List Str → List CollectionRef → List CollectionRef
  | _, [] => []
  | seen, c :: rest =>
    let h := normHandle c.handle
    if h ≠ [] ∧ h ∉ seen then c :: dedupByHandle (h :: seen) rest
    else dedupByHandle seen rest

/-- The external world one run sees: the API responses and the current
pacific date. `collectionProducts i` is the body of the
`collections/{i}/products.json` response. -/
structure Store where
  today : PDate
  customCollections : List CollectionRef
  smartCollections : List CollectionRef
  collectionProducts : Nat → List RawProduct
  newestRaw : List RawProduct
  recentPosts : List (Str × Str)

/-- `get_all_collections`: custom then smart collections, de-duplicated
by normalised handle. -/
def get_all_collections (st : Store) : List CollectionRef :=
  dedupByHandle [] (st.customCollections ++ st.smartCollections)

/-- `get_collection_by_handle`: normalise, reject empty, then first match. -/
def get_collection_by_handle (st : Store) (handle : Str) : Option CollectionRef :=
  if normHandle handle = [] then none
  else (get_all_collections st).find? fun c => normHandle c.handle = normHandle handle

/-- Eligible products of one collection. -/
def productsFromColl (st : Store) (c : CollectionRef) : List Product :=
  productsFromRaw (st.collectionProducts c.id)

/-! ## Selection (`sort_newest`, `choose_products_fresh`, `pick_topic_and_products`) -/

/-- Python lexicographic string `<=` by code point. -/
def strLe : Str → Str → Bool
  | [], _ => true
  | _ :: _, [] => false
  | a :: as, b :: bs => if a = b then strLe as bs else decide (a < b)

/-- Comparison used by `sorted(..., key=created_at, reverse=True)`:
newest (largest ISO string) first. -/
def newerFirst (a b : Product) : Bool := strLe b.created_at a.created_at

/-- `sort_newest`: stable sort descending by the `created_at` string. -/
def sort_newest (products : List Product) : List Product :=
  products.mergeSort newerFirst

/-- Outcomes of `random.sample(window, k)`: some `k` positions of the
window without replacement, in any order — equivalently the first `k`
elements of some permutation of the window. -/
def IsSample (window : List Product) (k : Nat) (out : List Product) : Prop :=
  ∃ w, window.Perm w ∧ out = w.take k

/-- `choose_products_fresh(products, k)` as a relation between its input
and the possible sampled outputs (raises on an empty pool, hence the
nonemptiness conjunct). -/
def ChooseFreshRel (products : List Product) (k : Nat) (out : List Product) : Prop :=
  products ≠ [] ∧
  IsSample ((sort_newest products).take (min FRESH_SAMPLE_WINDOW (sort_newest products).length))
    (min k ((sort_newest products).take
      (min FRESH_SAMPLE_WINDOW (sort_newest products).length)).length) out

/-- `SEASON_COLLECTION_HANDLES.get(season)` (empty for no season; the
`evergreen_priority` key is never looked up by the selection logic). -/
def seasonHandles : SeasonMode → List Str
  | .valentines => ["valentines-day".data, "valentines-gifts".data]
  | .black_history => ["black-history-vibe-collection".data, "black-history-vibe".data]

/-- The topic chosen when the seasonal tier fires. -/
def topicOf : SeasonMode → Str
  | .black_history => "Black History Vibe Collection".data
  | .valentines => "Valentine".data ++ [Char.ofNat 8217] ++ "s Day Style & Gifts".data

/-- The seasonal product pool: products of every curated collection whose
handle resolves, concatenated (no de-duplication) and sorted newest-first. -/
def seasonalPoolFor (st : Store) (s : SeasonMode) : List Product :=
  sort_newest (((seasonHandles s).map fun h =>
    match get_collection_by_handle st h with
    | some c => productsFromColl st c
    | none => []).flatten)

/-- Tier-2 pool: newest active products store-wide, sorted newest-first. -/
def newestPool (st : Store) : List Product :=
  sort_newest (newestFromRaw st.newestRaw)

/-- Results of `pick_topic_and_products`. -/
inductive PickOutcome where
  | ok (topic : Str) (picks : List Product) (season : Option SeasonMode)
      (posts : List (Str × Str))
  | errNoCollections
  | errNoProducts (title : Str)
deriving DecidableEq

/-- Tiers 2 and 3 of `pick_topic_and_products`: store-wide freshness,
then one randomly chosen collection, else the empty-result errors. -/
def PickRelRest (st : Store) (seasonOpt : Option SeasonMode) (out : PickOutcome) : Prop :=
  if newestPool st ≠ [] then
    ∃ picks, ChooseFreshRel (newestPool st) PICKS_PER_POST picks ∧
      out = .ok "Top New Arrivals".data picks seasonOpt st.recentPosts
  else if get_all_collections st = [] then out = .errNoCollections
  else
    ∃ c, c ∈ get_all_collections st ∧
      ((productsFromColl st c = [] ∧ out = .errNoProducts c.title) ∨
        (productsFromColl st c ≠ [] ∧
          ∃ picks, ChooseFreshRel (productsFromColl st c) PICKS_PER_POST picks ∧
            out = .ok c.title picks seasonOpt st.recentPosts))

/-- `pick_topic_and_products` as a relation over the sampling and
collection-choice nondeterminism. -/
def PickRel (st : Store) (out : PickOutcome) : Prop :=
  match get_season_mode st.today with
  | some s =>
    if seasonHandles s ≠ [] ∧ seasonalPoolFor st s ≠ [] then
      ∃ picks, ChooseFreshRel (seasonalPoolFor st s) PICKS_PER_POST picks ∧
        out = .ok (topicOf s) picks (some s) st.recentPosts
    else PickRelRest st (some s) out
  | none => PickRelRest st none out

/-- Identifier-distinctness of a selection. -/
def distinctIds (l : List Product) : Prop := (l.map Product.id).Nodup

instance (l : List Product) : Decidable (distinctIds l) := by
  unfold distinctIds
  infer_instance

/-! ## Generation (`strip_tags`, `openai_generate`) -/

/-- Chars after the first `>` (used to consume one `<[^>]*>` match). -/
def afterGt (cs : Str) : Str := (cs.dropWhile (· ≠ '>')).drop 1

/-- `re.sub(r"<[^>]*>", " ", html)` — each `<`...`>` span (up to the
first closing `>`) becomes one space; a `<` with no later `>` matches
nothing and stays. Structurally recursive on a fuel argument; every step
consumes at least one character, so fuel `cs.length` always suffices. -/
def stripTagSpansFuel : Nat → Str → Str
  | 0, cs => cs
  | _ + 1, [] => []
  | fuel + 1, '<' :: rest =>
    if rest.any (· = '>') then ' ' :: stripTagSpansFuel fuel (afterGt rest)
    else '<' :: rest
  | fuel + 1, c :: rest => c :: stripTagSpansFuel fuel rest

/-- `strip_tags(html)`: replace tag spans, then strip. -/
def strip_tags (html : Str) : Str :=
  stripChars (stripTagSpansFuel html.length html)

/-- The parsed JSON object of a generation response (fields typed as the
schema demands; `none` = key absent). -/
structure GenObj where
  title : Option Str
  html : Option Str
  tags : Option Str
  excerpt : Option Str
  meta_description : Option Str
deriving DecidableEq

/-- The model reply at the `json.loads` boundary: either a successfully
parsed top-level JSON object, or text that is not valid JSON (on which
`json.loads` raises `JSONDecodeError`). -/
inductive RawResponse where
  | obj (o : GenObj)
  | invalid (s : Str)
deriving DecidableEq

/-- Exceptions `openai_generate` can raise while interpreting the reply. -/
inductive GenError where
  | jsonDecodeError
  | keyError
deriving DecidableEq

/-- Hard-coded final excerpt fallback. -/
def fallbackExcerpt : Str := "Fresh drops, style tips, and curated picks from Brand63.".data

/-- The response-interpretation tail of `openai_generate` (everything
after the HTTP call): parse the reply as JSON, compute the excerpt and
meta-description fallbacks, and return
`(title, html, tags, excerpt[:250], meta)`; raises on non-JSON input and
on a missing required key. -/
def openai_generate (r : RawResponse) : Except GenError (Str × Str × Str × Str × Str) :=
  match r with
  | .invalid _ => .error .jsonDecodeError
  | .obj o =>
    let excerpt0 := stripChars (o.excerpt.getD [])
    let excerpt :=
      if excerpt0 = [] then
        let e1 := stripChars ((strip_tags (o.html.getD [])).take 200)
        if e1 = [] then fallbackExcerpt else e1
      else excerpt0
    let meta0 := stripChars (o.meta_description.getD [])
    let meta := (if meta0 = [] then excerpt else meta0).take 300
    match o.title, o.html, o.tags with
    | some t, some h, some g => .ok (t, h, g, excerpt.take 250, meta)
    | _, _, _ => .error .keyError

/-! ## Assembly and publishing (`build_image_html`, `publish_article`, `main`) -/

/-- Config constant `AUTHOR_NAME` default. -/
def AUTHOR_NAME : Str := "Brand63".data

/-- Config constant `AUTO_PUBLISH = False` (line 18: keep drafts hidden). -/
def AUTO_PUBLISH : Bool := false

/-- `build_image_html(p)`: the figure block appended for one product. -/
def build_image_html (author : Str) (p : Product) : Str :=
  "<figure><a href=".data ++ [q] ++ p.url ++ [q] ++ " target=".data ++ [q] ++ "_self".data
    ++ [q] ++ " rel=".data ++ [q] ++ "noopener".data ++ [q] ++ "><img src=".data ++ [q]
    ++ p.image ++ [q] ++ " alt=".data ++ [q] ++ p.title ++ " by ".data ++ author ++ [q]
    ++ " loading=".data ++ [q] ++ "lazy".data ++ [q] ++ " /></a><figcaption><a href=".data
    ++ [q] ++ p.url ++ [q] ++ " target=".data ++ [q] ++ "_self".data ++ [q] ++ ">Shop ".data
    ++ p.title ++ "</a></figcaption></figure>".data

/-- The combined body built in `main`:
`f"{html}\n<hr/>\n<section>{image_blocks}</section>"`. -/
def assembledBody (author : Str) (picks : List Product) (html : Str) : Str :=
  html ++ "\n<hr/>\n<section>".data
    ++ joinChar '\n' (picks.map (build_image_html author)) ++ "</section>".data

/-- Does the string begin with `href='`? -/
def headIsHref (l : Str) : Bool :=
  match l with
  | 'h' :: 'r' :: 'e' :: 'f' :: '=' :: c :: _ => c = q
  | _ => false

/-- All link targets of an HTML string: for every position where
`href='` begins, the characters up to the next single quote. -/
def grabTargets : Str → List Str
  | [] => []
  | c :: cs =>
    if headIsHref (c :: cs) then ((c :: cs).drop 6).takeWhile (· ≠ q) :: grabTargets cs
    else grabTargets cs

/-- Fixed default tag string. -/
def defaultTags : Str := "brand63 blog, style blog, new arrivals blog".data

/-- The tag-cleaning step of `publish_article`: split on commas, keep
non-blank tags, strip each, delete `#` and `|`, append `" blog"`, re-join
with commas, and fall back to `defaultTags` when the result is empty. -/
def cleanedTags (tags : Str) : Str :=
  let parts := (splitOnChar ',' tags).filterMap fun t =>
    let s := stripChars t
    if s = [] then none
    else some (((s.filter (· ≠ '#')).filter (· ≠ '|')) ++ " blog".data)
  let joined := joinChar ',' parts
  if joined = [] then defaultTags else joined

/-- The featured image of an article payload. -/
structure FeaturedImage where
  src : Str
  alt : Str
deriving DecidableEq

/-- The `article` payload `publish_article` posts to the blog backend. -/
structure ArticlePayload where
  title : Str
  author : Str
  tags : Str
  body_html : Str
  published : Bool
  excerpt : Str
  excerpt_html : Str
  image : Option FeaturedImage
deriving DecidableEq

/-- `publish_article` (the payload it sends; `meta_desc` is computed by
the source but never placed in the payload, which we mirror). A falsy —
absent or empty — `featured_image_src` attaches no image; a falsy
`featured_image_alt` falls back to the (untruncated) title. -/
def publish_article (author title body_html meta_desc tags excerpt : Str)
    (featured_image_src featured_image_alt : Option Str) : ArticlePayload :=
  let _meta_desc := (stripChars meta_desc).take 300
  let excerpt1 := (stripChars excerpt).take 250
  let excerpt2 := if excerpt1 = [] then fallbackExcerpt else excerpt1
  { title := title.take 250, author := author, tags := cleanedTags tags,
    body_html := body_html, published := AUTO_PUBLISH, excerpt := excerpt2,
    excerpt_html := "<p>".data ++ excerpt2 ++ "</p>".data,
    image :=
      match featured_image_src with
      | some src =>
        if src = [] then none
        else some ⟨src, match featured_image_alt with
          | some a => if a = [] then title else a
          | none => title⟩
      | none => none }

/-- The assembly done in `main` lines 444-454: combined body, featured
src/alt from the first pick, then `publish_article`. -/
def assembleArticle (author : Str) (picks : List Product)
    (title html tags excerpt meta : Str) : ArticlePayload :=
  publish_article author title (assembledBody author picks html) meta tags excerpt
    (picks.head?.map Product.image) (picks.head?.map Product.title)

/-! ## Concrete stores and inputs used by counterexamples and witnesses -/

/-- One eligible raw product (active, with an image). -/
def rawTee : RawProduct :=
  { id := 7, title := "Vibe Tee".data, handle := "vibe-tee".data,
    created_at := "2025-01-15T10:00:00-05:00".data, status := some "active".data,
    images := ["https://cdn.shopify.test/tee.jpg".data], tags := [], vendor := [] }

/-- The product dict built from `rawTee`. -/
def teeProduct : Product := mkProductWith rawTee "https://cdn.shopify.test/tee.jpg".data

/-- A run on Feb 5 in which both Black History collection handles resolve
and both curated collections contain the same product. -/
def stDupSeason : Store :=
  { today := ⟨2025, 2, 5⟩,
    customCollections :=
      [⟨1, "BHV Collection".data, "black-history-vibe-collection".data⟩,
       ⟨2, "BHV".data, "black-history-vibe".data⟩],
    smartCollections := [],
    collectionProducts := fun i => if i = 1 ∨ i = 2 then [rawTee] else [],
    newestRaw := [],
    recentPosts := [] }

/-- A July run with no seasonal window, an empty store-wide newest pool,
an empty first collection and a non-empty second collection. -/
def stEmptyPick : Store :=
  { today := ⟨2025, 7, 1⟩,
    customCollections :=
      [⟨1, "Empty One".data, "empty-one".data⟩,
       ⟨2, "Full One".data, "full-one".data⟩],
    smartCollections := [],
    collectionProducts := fun i => if i = 2 then [rawTee] else [],
    newestRaw := [],
    recentPosts := [] }

/-- Generated html containing one external link. -/
def evilHtml : Str :=
  "<p>Picks</p><a href=".data ++ [q] ++ "https://evil.example".data ++ [q] ++ ">deal</a>".data

/-- A parsed generation object with every key present. -/
def genObjFull : GenObj :=
  { title := some "Top New Arrivals".data, html := some "<h2>Hi</h2><p>Buy.</p>".data,
    tags := some "style, hoodies".data, excerpt := some "Fresh picks.".data,
    meta_description := some "Shop the newest drops.".data }

/-- Two identifier-distinct products, already newest-first. -/
def prodA : Product :=
  { id := 1, title := "A".data, handle := "a".data, created_at := "2025-03-01".data,
    url := "https://www.brand63.com/products/a".data, image := "ia".data,
    tags := [], vendor := [] }

/-- Second, older product for witnesses. -/
def prodB : Product :=
  { id := 2, title := "B".data, handle := "b".data, created_at := "2025-02-01".data,
    url := "https://www.brand63.com/products/b".data, image := "ib".data,
    tags := [], vendor := [] }

/-! ## Helper lemmas -/

theorem splitOnChar_ne_nil (sep : Char) (cs : Str) : splitOnChar sep cs ≠ [] := by
  induction cs with
  | nil => simp [splitOnChar]
  | cons c cs ih =>
    simp only [splitOnChar]
    split
    · simp
    · split
      · simp
      · simp

theorem not_mem_of_mem_splitOnChar {sep : Char} {cs p : Str}
    (hp : p ∈ splitOnChar sep cs) : sep ∉ p := by
  induction cs generalizing p with
  | nil =>
    simp [splitOnChar] at hp
    simp [hp]
  | cons c cs ih =>
    simp only [splitOnChar] at hp
    split at hp
    · rcases List.mem_cons.mp hp with h | h
      · simp [h]
      · exact ih h
    · rename_i hcsep
      rcases hsplit : splitOnChar sep cs with _ | ⟨p', ps⟩
      · exact absurd hsplit (splitOnChar_ne_nil sep cs)
      · rw [hsplit] at hp
        rcases List.mem_cons.mp hp with h | h
        · subst h
          intro hmem
          rcases List.mem_cons.mp hmem with h' | h'
          · exact hcsep h'.symm
          · have : p' ∈ splitOnChar sep cs := by rw [hsplit]; exact List.mem_cons_self _ _
            exact ih this h'
        · exact ih (by rw [hsplit]; exact List.mem_cons_of_mem _ h)

theorem splitOnChar_append_cons {sep : Char} {p : Str} (hp : sep ∉ p) (rest : Str) :
    splitOnChar sep (p ++ sep :: rest) = p :: splitOnChar sep rest := by
  induction p with
  | nil => simp [splitOnChar]
  | cons c p ih =>
    have hc : c ≠ sep := fun h => hp (h ▸ List.mem_cons_self _ _)
    have hp' : sep ∉ p := fun h => hp (List.mem_cons_of_mem _ h)
    simp only [List.cons_append, splitOnChar, if_neg hc, List.append_eq]
    rw [ih hp']

theorem splitOnChar_of_not_mem {sep : Char} {p : Str} (hp : sep ∉ p) :
    splitOnChar sep p = [p] := by
  induction p with
  | nil => simp [splitOnChar]
  | cons c p ih =>
    have hc : c ≠ sep := fun h => hp (h ▸ List.mem_cons_self _ _)
    have hp' : sep ∉ p := fun h => hp (List.mem_cons_of_mem _ h)
    simp only [splitOnChar, if_neg hc, ih hp']

theorem splitOnChar_joinChar {sep : Char} {parts : List Str}
    (hne : parts ≠ []) (hfree : ∀ p ∈ parts, sep ∉ p) :
    splitOnChar sep (joinChar sep parts) = parts := by
  induction parts with
  | nil => exact absurd rfl hne
  | cons p ps ih =>
    rcases ps with _ | ⟨p', ps'⟩
    · simpa [joinChar] using splitOnChar_of_not_mem (hfree p (List.mem_cons_self _ _))
    · have h1 : sep ∉ p := hfree p (List.mem_cons_self _ _)
      have h2 : ∀ x ∈ p' :: ps', sep ∉ x := fun x hx => hfree x (List.mem_cons_of_mem _ hx)
      simp only [joinChar, splitOnChar_append_cons h1]
      rw [ih (by simp) h2]

/-- Elements of `stripChars cs` come from `cs`. -/
theorem mem_of_mem_stripChars {cs : Str} {x : Char} (h : x ∈ stripChars cs) : x ∈ cs := by
  unfold stripChars at h
  rw [List.mem_reverse] at h
  have h1 := (List.dropWhile_sublist (l := (cs.dropWhile isSpaceChar).reverse) isSpaceChar).subset h
  rw [List.mem_reverse] at h1
  exact (List.dropWhile_sublist (l := cs) isSpaceChar).subset h1

/-- Same-month date subtraction is day subtraction. -/
theorem dateSubDays_same_month (y : Int) (m a b : Nat) :
    dateSubDays ⟨y, m, a⟩ ⟨y, m, b⟩ = (a : Int) - (b : Int) := by
  unfold dateSubDays toRD doyOf
  dsimp only
  omega

theorem length_afterGt_le (cs : Str) : (afterGt cs).length ≤ cs.length := by
  calc (afterGt cs).length ≤ (cs.dropWhile (· ≠ '>')).length :=
      (List.drop_sublist _ _).length_le
    _ ≤ cs.length := (List.dropWhile_sublist _).length_le

theorem strLe_total : ∀ a b : Str, strLe a b ∨ strLe b a := by
  intro a
  induction a with
  | nil => intro b; left; rfl
  | cons x xs ih =>
    intro b
    cases b with
    | nil => right; rfl
    | cons y ys =>
      by_cases hxy : x = y
      · subst hxy
        simpa [strLe] using ih ys
      · rcases lt_or_gt_of_ne hxy with h | h
        · left; simp [strLe, hxy, h]
        · right
          simp [strLe, Ne.symm hxy, h, not_lt_of_gt h]

theorem strLe_trans : ∀ a b c : Str, strLe a b → strLe b c → strLe a c := by
  intro a
  induction a with
  | nil => intro b c _ _; rfl
  | cons x xs ih =>
    intro b c hab hbc
    cases b with
    | nil => simp [strLe] at hab
    | cons y ys =>
      cases c with
      | nil => simp [strLe] at hbc
      | cons z zs =>
        by_cases hxy : x = y <;> by_cases hyz : y = z
        · subst hxy; subst hyz
          simp only [strLe, if_pos rfl] at hab hbc ⊢
          exact ih ys zs hab hbc
        · subst hxy
          simp only [strLe, if_pos rfl] at hab
          simp only [strLe, if_neg hyz] at hbc ⊢
          exact hbc
        · subst hyz
          simp only [strLe, if_neg hxy] at hab
          simp only [strLe, if_neg hxy]
          exact hab
        · simp only [strLe, if_neg hxy] at hab
          simp only [strLe, if_neg hyz] at hbc
          have hxz : x < z := lt_trans (of_decide_eq_true hab) (of_decide_eq_true hbc)
          simp [strLe, ne_of_lt hxz, hxz]

/-- `sort_newest` fixes an already newest-first list. -/
theorem sort_newest_of_sorted {l : List Product}
    (h : l.Pairwise fun a b => newerFirst a b = true) : sort_newest l = l :=
  List.mergeSort_of_sorted h

theorem sort_newest_perm (l : List Product) : (sort_newest l).Perm l :=
  List.mergeSort_perm l newerFirst

theorem length_sort_newest (l : List Product) : (sort_newest l).length = l.length := by
  unfold sort_newest
  exact List.length_mergeSort l

theorem sort_newest_pairwise (l : List Product) :
    (sort_newest l).Pairwise fun a b => newerFirst a b = true := by
  unfold sort_newest
  refine List.sorted_mergeSort ?_ ?_ l
  · intro a b c hab hbc
    unfold newerFirst at hab hbc ⊢
    exact strLe_trans _ _ _ hbc hab
  · intro a b
    unfold newerFirst
    rcases strLe_total a.created_at b.created_at with h | h <;> simp [h]

/-- The freshness sub-window of a pool. -/
theorem chooseFresh_window_eq (products : List Product) :
    (sort_newest products).take (min FRESH_SAMPLE_WINDOW (sort_newest products).length)
      = (sort_newest products).take (min FRESH_SAMPLE_WINDOW products.length) := by
  rw [length_sort_newest]

theorem chooseFresh_length {products : List Product} {k : Nat} {out : List Product}
    (h : ChooseFreshRel products k out) :
    out.length = min k (min FRESH_SAMPLE_WINDOW products.length) := by
  obtain ⟨-, w, hperm, hout⟩ := h
  subst hout
  rw [List.length_take, ← hperm.length_eq, List.length_take, length_sort_newest]
  omega

theorem chooseFresh_subperm {products : List Product} {k : Nat} {out : List Product}
    (h : ChooseFreshRel products k out) :
    out.Subperm ((sort_newest products).take (min FRESH_SAMPLE_WINDOW products.length)) := by
  obtain ⟨-, w, hperm, hout⟩ := h
  subst hout
  rw [← chooseFresh_window_eq]
  exact (List.take_sublist _ _).subperm.trans hperm.symm.subperm

theorem chooseFresh_mem_window {products : List Product} {k : Nat} {out : List Product}
    (h : ChooseFreshRel products k out) :
    ∀ p ∈ out, p ∈ (sort_newest products).take (min FRESH_SAMPLE_WINDOW products.length) :=
  fun _ hp => (chooseFresh_subperm h).subset hp

theorem chooseFresh_nodup {products : List Product} {k : Nat} {out : List Product}
    (h : ChooseFreshRel products k out) (hd : distinctIds products) : distinctIds out := by
  obtain ⟨-, w, hperm, hout⟩ := h
  subst hout
  have hsortd : distinctIds (sort_newest products) :=
    (((sort_newest_perm products).map Product.id).nodup_iff).mpr hd
  have hwind : distinctIds ((sort_newest products).take
      (min FRESH_SAMPLE_WINDOW (sort_newest products).length)) :=
    ((List.take_sublist _ _).map Product.id).nodup hsortd
  have hw : distinctIds w := ((hperm.map Product.id).nodup_iff).mp hwind
  exact ((List.take_sublist _ _).map Product.id).nodup hw

theorem chooseFresh_ne_nil {products : List Product} {k : Nat} {out : List Product}
    (h : ChooseFreshRel products k out) (hk : 1 ≤ k) : out ≠ [] := by
  have hlen := chooseFresh_length h
  have hne := h.1
  intro hnil
  subst hnil
  simp only [List.length_nil] at hlen
  have : products.length ≠ 0 := fun h0 => hne (List.length_eq_zero.mp h0)
  unfold FRESH_SAMPLE_WINDOW at hlen
  omega

/-- A two-element identifier-distinct pool sampled in full. -/
theorem chooseFresh_AB : ChooseFreshRel [prodA, prodB] PICKS_PER_POST [prodA, prodB] := by
  refine ⟨by decide, [prodA, prodB], ?_, ?_⟩
  · rw [sort_newest_of_sorted (by decide)]
    decide
  · rw [sort_newest_of_sorted (by decide)]
    decide

/-- Inversion of tiers 2 and 3: successful picks are non-empty, and the
two error outcomes pin down the state that produced them. -/
theorem pickRelRest_inv {st : Store} {so : Option SeasonMode} {out : PickOutcome}
    (h : PickRelRest st so out) :
    (∀ t p s r, out = PickOutcome.ok t p s r → p ≠ []) ∧
    ((out = PickOutcome.errNoCollections ∨ ∃ ti, out = PickOutcome.errNoProducts ti) →
      newestPool st = []) ∧
    (out = PickOutcome.errNoCollections → get_all_collections st = []) ∧
    (∀ ti, out = PickOutcome.errNoProducts ti →
      ∃ c, c ∈ get_all_collections st ∧ c.title = ti ∧ productsFromColl st c = []) := by
  unfold PickRelRest at h
  by_cases h1 : newestPool st ≠ []
  · rw [if_pos h1] at h
    obtain ⟨picks, hch, hout⟩ := h
    subst hout
    refine ⟨?_, ?_, ?_, ?_⟩
    · intro t p s r heq
      cases heq
      exact chooseFresh_ne_nil hch (by decide)
    · rintro (heq | ⟨ti, heq⟩) <;> simp at heq
    · intro heq
      simp at heq
    · intro ti heq
      simp at heq
  · rw [if_neg h1] at h
    have h1' : newestPool st = [] := not_not.mp h1
    by_cases h2 : get_all_collections st = []
    · rw [if_pos h2] at h
      subst h
      refine ⟨?_, fun _ => h1', fun _ => h2, ?_⟩
      · intro t p s r heq
        simp at heq
      · intro ti heq
        simp at heq
    · rw [if_neg h2] at h
      obtain ⟨c, hc, hcase⟩ := h
      rcases hcase with ⟨hpe, hout⟩ | ⟨hpne, picks, hch, hout⟩
      · subst hout
        refine ⟨?_, fun _ => h1', ?_, ?_⟩
        · intro t p s r heq
          simp at heq
        · intro heq
          simp at heq
        · intro ti heq
          cases heq
          exact ⟨c, hc, rfl, hpe⟩
      · subst hout
        refine ⟨?_, fun _ => h1', ?_, ?_⟩
        · intro t p s r heq
          cases heq
          exact chooseFresh_ne_nil hch (by decide)
        · intro heq
          simp at heq
        · intro ti heq
          simp at heq

/-- `newestPool` is empty when the newest-products response is empty. -/
theorem newestPool_stEmptyPick : newestPool stEmptyPick = [] := by
  unfold newestPool sort_newest
  rw [show newestFromRaw stEmptyPick.newestRaw = [] from rfl]
  exact List.mergeSort_nil

/-- The July run with an empty chosen collection reaches the
per-collection empty-result error. -/
theorem pickRel_stEmptyPick : PickRel stEmptyPick (.errNoProducts "Empty One".data) := by
  unfold PickRel
  rw [show get_season_mode stEmptyPick.today = none from by decide]
  unfold PickRelRest
  rw [if_neg fun hc => hc newestPool_stEmptyPick]
  rw [if_neg (show ¬get_all_collections stEmptyPick = [] by decide)]
  exact ⟨⟨1, "Empty One".data, "empty-one".data⟩, by decide, Or.inl ⟨by decide, rfl⟩⟩

/-- The two curated Black History collections of `stDupSeason` both
resolve and both contain `teeProduct`, so the combined seasonal pool
holds it twice. -/
theorem seasonalPool_stDupSeason :
    seasonalPoolFor stDupSeason SeasonMode.black_history = [teeProduct, teeProduct] := by
  unfold seasonalPoolFor sort_newest
  rw [show (((seasonHandles SeasonMode.black_history).map fun h =>
      match get_collection_by_handle stDupSeason h with
      | some c => productsFromColl stDupSeason c
      | none => []).flatten) = [teeProduct, teeProduct] from by decide]
  exact List.mergeSort_of_sorted (by decide)

/-- On Feb 5 the seasonal tier of `stDupSeason` can select the same
product twice. -/
theorem pickRel_stDupSeason :
    PickRel stDupSeason (.ok (topicOf .black_history) [teeProduct, teeProduct]
      (some .black_history) stDupSeason.recentPosts) := by
  unfold PickRel
  rw [show get_season_mode stDupSeason.today = some SeasonMode.black_history from by decide]
  dsimp only
  rw [if_pos ⟨by decide, by rw [seasonalPool_stDupSeason]; decide⟩]
  refine ⟨[teeProduct, teeProduct], ?_, rfl⟩
  rw [seasonalPool_stDupSeason]
  refine ⟨by decide, [teeProduct, teeProduct], ?_, ?_⟩
  · rw [show sort_newest [teeProduct, teeProduct] = [teeProduct, teeProduct] from
      sort_newest_of_sorted (by decide)]
    decide
  · rw [show sort_newest [teeProduct, teeProduct] = [teeProduct, teeProduct] from
      sort_newest_of_sorted (by decide)]
    decide

/-! ## Claims -/

/-- C9: for every input to `publish_article`, the payload sent to the
blog backend has its `published` flag equal to `False` (the hard-coded
`AUTO_PUBLISH` constant): every article is created as a hidden draft,
regardless of configuration or caller arguments. -/
theorem c9_always_hidden_draft (author title body_html meta_desc tags excerpt : Str)
    (fsrc falt : Option Str) :
    (publish_article author title body_html meta_desc tags excerpt fsrc falt).published
      = false := rfl

/-- C6: on any date from February 1 through February 14 the first
condition of `get_season_mode` (month = 2) fires, so the mode returned
is `black_history`, never `valentines` — even though through February 13
the date also lies inside the 45-day Valentine lookahead window. -/
theorem c6_february_overlap_black_history (y : Int) (d : Nat) (h1 : 1 ≤ d) (h2 : d ≤ 14) :
    get_season_mode ⟨y, 2, d⟩ = some SeasonMode.black_history ∧
    (d ≤ 13 → within_days (prevDay ⟨y, 2, 14⟩) HOLIDAY_LOOKAHEAD_DAYS ⟨y, 2, d⟩) := by
  constructor
  · unfold get_season_mode
    exact if_pos (Or.inl rfl)
  · intro h13
    have hprev : prevDay ⟨y, 2, 14⟩ = ⟨y, 2, 13⟩ := rfl
    rw [hprev]
    unfold within_days HOLIDAY_LOOKAHEAD_DAYS
    rw [dateSubDays_same_month]
    omega

/-- Witness for C6 at February 5, 2025. -/
theorem c6_february_overlap_black_history_witness :
    get_season_mode ⟨2025, 2, 5⟩ = some SeasonMode.black_history ∧
    (5 ≤ 13 → within_days (prevDay ⟨2025, 2, 14⟩) HOLIDAY_LOOKAHEAD_DAYS ⟨2025, 2, 5⟩) :=
  c6_february_overlap_black_history 2025 5 (by decide) (by decide)

/-- C7: in the freshness tier, every selected product lies in the
sub-window of the `min(120, pool size)` newest products of the pool
ordered by `created_at` descending, the selection has the requested
count `min(k, window size)` and is drawn without replacement (a
sub-permutation of the window); the sorted pool is a permutation of the
input, pairwise descending.  Uniformity of `random.sample` is modelled
by quantifying over every without-replacement outcome. -/
theorem c7_fresh_window {products : List Product} {k : Nat} {out : List Product}
    (h : ChooseFreshRel products k out) :
    (∀ p ∈ out, p ∈ (sort_newest products).take (min FRESH_SAMPLE_WINDOW products.length)) ∧
    out.length = min k (min FRESH_SAMPLE_WINDOW products.length) ∧
    out.Subperm ((sort_newest products).take (min FRESH_SAMPLE_WINDOW products.length)) ∧
    (sort_newest products).Perm products ∧
    (sort_newest products).Pairwise (fun a b => newerFirst a b = true) :=
  ⟨chooseFresh_mem_window h, chooseFresh_length h, chooseFresh_subperm h,
    sort_newest_perm products, sort_newest_pairwise products⟩

/-- Witness for C7 at a concrete two-product pool. -/
theorem c7_fresh_window_witness :
    ChooseFreshRel [prodA, prodB] PICKS_PER_POST [prodA, prodB] ∧
    ((∀ p ∈ [prodA, prodB],
        p ∈ (sort_newest [prodA, prodB]).take
          (min FRESH_SAMPLE_WINDOW ([prodA, prodB] : List Product).length)) ∧
      ([prodA, prodB] : List Product).length =
        min PICKS_PER_POST (min FRESH_SAMPLE_WINDOW ([prodA, prodB] : List Product).length) ∧
      ([prodA, prodB] : List Product).Subperm
        ((sort_newest [prodA, prodB]).take
          (min FRESH_SAMPLE_WINDOW ([prodA, prodB] : List Product).length)) ∧
      (sort_newest [prodA, prodB]).Perm [prodA, prodB] ∧
      (sort_newest [prodA, prodB]).Pairwise (fun a b => newerFirst a b = true)) :=
  ⟨chooseFresh_AB, c7_fresh_window chooseFresh_AB⟩

/-- C2 (amended): a fresh selection has length
`min(requested, min(window, pool size))` — which is `min(requested,
pool size)` for the configured request of 3 — counting pool entries with
multiplicity, and it is identifier-distinct whenever the input pool is;
the seasonal tier concatenates curated collections without
de-duplicating by identifier, so a duplicated pool can yield duplicate
picks (see the counterexample). -/
theorem c2_selection_count_distinct {products : List Product} {k : Nat} {out : List Product}
    (h : ChooseFreshRel products k out) :
    out.length = min k (min FRESH_SAMPLE_WINDOW products.length) ∧
    (distinctIds products → distinctIds out) :=
  ⟨chooseFresh_length h, chooseFresh_nodup h⟩

/-- Witness for C2 (amended) at a concrete identifier-distinct pool. -/
theorem c2_selection_count_distinct_witness :
    ChooseFreshRel [prodA, prodB] PICKS_PER_POST [prodA, prodB] ∧
    (([prodA, prodB] : List Product).length =
      min PICKS_PER_POST (min FRESH_SAMPLE_WINDOW ([prodA, prodB] : List Product).length) ∧
      (distinctIds [prodA, prodB] → distinctIds [prodA, prodB])) :=
  ⟨chooseFresh_AB, c2_selection_count_distinct chooseFresh_AB⟩

/-- C1 (amended): when the generation response is a valid JSON object
carrying the required `title`, `html` and `tags` keys,
`openai_generate` returns them together with a non-empty excerpt capped
at 250 characters and a meta description capped at 300; a response that
is not valid JSON instead raises (see the counterexample) — there is no
degrade-to-draft path. -/
theorem c1_generate_structured {o : GenObj} {t h g : Str}
    (ht : o.title = some t) (hh : o.html = some h) (hg : o.tags = some g) :
    ∃ e m, openai_generate (.obj o) = .ok (t, h, g, e, m) ∧
      e ≠ [] ∧ e.length ≤ 250 ∧ m.length ≤ 300 := by
  unfold openai_generate
  dsimp only
  rw [ht, hh, hg]
  dsimp only [Option.getD]
  refine ⟨_, _, rfl, ?_, ?_, ?_⟩
  · intro hnil
    rcases List.take_eq_nil_iff.mp hnil with h250 | hx
    · exact absurd h250 (by decide)
    · split_ifs at hx with h1 h2
      · exact absurd hx (by decide)
      · exact h2 hx
      · exact h1 hx
  · rw [List.length_take]
    omega
  · rw [List.length_take]
    omega

/-- Witness for C1 (amended) at a fully populated generation object. -/
theorem c1_generate_structured_witness :
    genObjFull.title = some "Top New Arrivals".data ∧
    genObjFull.html = some "<h2>Hi</h2><p>Buy.</p>".data ∧
    genObjFull.tags = some "style, hoodies".data ∧
    ∃ e m, openai_generate (.obj genObjFull) =
        .ok ("Top New Arrivals".data, "<h2>Hi</h2><p>Buy.</p>".data, "style, hoodies".data, e, m) ∧
      e ≠ [] ∧ e.length ≤ 250 ∧ m.length ≤ 300 :=
  ⟨rfl, rfl, rfl, c1_generate_structured rfl rfl rfl⟩

/-- C1 (counterexample): a generation response that is arbitrary prose
(not valid JSON) makes `openai_generate` raise a `JSONDecodeError`
instead of returning a best-effort draft, refuting "never raises". -/
theorem c1_generate_counterexample :
    openai_generate (.invalid "Sure! Here are some great picks for you.".data) =
      .error .jsonDecodeError := rfl

/-- C5 (counterexample): for the unstructured response
`"Best Hoodies\nGreat picks this week.\nBuy now."` the code raises a
`JSONDecodeError`; no ArticleDraft with title `"Best Hoodies"` and two
body paragraphs is produced. -/
theorem c5_unstructured_counterexample :
    openai_generate (.invalid "Best Hoodies\nGreat picks this week.\nBuy now.".data) =
      .error .jsonDecodeError := rfl

/-- C5 (amended): there is no line-based unstructured fallback — every
generation response that is not parseable as JSON makes
`openai_generate` raise a `JSONDecodeError`; no title or body paragraphs
are derived from the response lines. -/
theorem c5_unstructured_raises (s : Str) :
    openai_generate (.invalid s) = .error .jsonDecodeError := rfl

/-- C3 (failing input): the generated html is concatenated into the
published body with no link validation, so a generation response whose
html links to `https://evil.example` produces an assembled body
containing a link target outside the selection's product URLs — the
spec's no-free-link-injection invariant (and the prompt's own
"No external links" rule) is not enforced by the code. -/
theorem c3_link_injection_bug :
    "https://evil.example".data ∈ grabTargets (assembledBody AUTHOR_NAME [teeProduct] evilHtml) ∧
    "https://evil.example".data ∉ [teeProduct].map Product.url := by
  decide

/-- C8 (counterexample): `main` passes `picks[0]["title"]` as the
featured alt text, so for the concrete run below the alt is the bare
product title, not `"<product title> by <author>"`. -/
theorem c8_featured_alt_counterexample :
    (assembleArticle AUTHOR_NAME [teeProduct] "T".data "<p>b</p>".data "t1".data
        "ex".data "md".data).image = some ⟨teeProduct.image, teeProduct.title⟩ ∧
    teeProduct.title ≠ teeProduct.title ++ " by ".data ++ AUTHOR_NAME := by
  decide

/-- C8 (amended): for a non-empty selection the featured image src is the
first product's image and the alt text is the first product's bare title
(falling back to the draft title only if that title is empty); with no
products no featured image is attached at all, so there is no alt text
to fall back. -/
theorem c8_featured_image {author : Str} {picks : List Product}
    {title html tags excerpt meta : Str} :
    (∀ p, picks.head? = some p → p.image ≠ [] →
      (assembleArticle author picks title html tags excerpt meta).image =
        some ⟨p.image, if p.title = [] then title else p.title⟩) ∧
    (picks = [] →
      (assembleArticle author picks title html tags excerpt meta).image = none) := by
  constructor
  · intro p hp himg
    unfold assembleArticle publish_article
    rw [hp]
    dsimp only [Option.map]
    rw [if_neg himg]
  · intro hp
    subst hp
    rfl

/-- Witness for C8 (amended) at a concrete one-product selection. -/
theorem c8_featured_image_witness :
    ([prodA].head? = some prodA) ∧ prodA.image ≠ [] ∧
    (assembleArticle AUTHOR_NAME [prodA] "T".data "<p>b</p>".data "t1".data
        "ex".data "md".data).image =
      some ⟨prodA.image, if prodA.title = [] then "T".data else prodA.title⟩ :=
  ⟨rfl, by decide, c8_featured_image.1 prodA rfl (by decide)⟩

/-- Structure of every tag kept by the cleaning loop, and the default
fallback when no non-blank tag survives. -/
theorem cleanedTags_spec (tags : Str) :
    cleanedTags tags ≠ [] ∧
    (∀ t ∈ splitOnChar ',' (cleanedTags tags),
      " blog".data <:+ t ∧ '#' ∉ t ∧ '|' ∉ t) ∧
    ((∀ t ∈ splitOnChar ',' tags, stripChars t = []) → cleanedTags tags = defaultTags) := by
  unfold cleanedTags
  dsimp only
  set f : Str → Option Str := fun t =>
    if stripChars t = [] then none
    else some ((((stripChars t).filter (· ≠ '#')).filter (· ≠ '|')) ++ " blog".data) with hf
  set P : List Str := (splitOnChar ',' tags).filterMap f with hP
  have hmem : ∀ x ∈ P, " blog".data <:+ x ∧ '#' ∉ x ∧ '|' ∉ x ∧ ',' ∉ x ∧ x ≠ [] := by
    intro x hx
    obtain ⟨t0, ht0, hft⟩ := List.mem_filterMap.mp hx
    by_cases hs : stripChars t0 = []
    · rw [hf] at hft
      simp only [if_pos hs] at hft
      exact absurd hft (by simp)
    · rw [hf] at hft
      simp only [if_neg hs] at hft
      obtain rfl := Option.some.inj hft
      refine ⟨List.suffix_append _ _, ?_, ?_, ?_, ?_⟩
      · intro hm
        rcases List.mem_append.mp hm with hm | hm
        · have h2 := (List.mem_filter.mp (List.mem_filter.mp hm).1).2
          simp at h2
        · exact absurd hm (by decide)
      · intro hm
        rcases List.mem_append.mp hm with hm | hm
        · have h2 := (List.mem_filter.mp hm).2
          simp at h2
        · exact absurd hm (by decide)
      · intro hm
        rcases List.mem_append.mp hm with hm | hm
        · have h1 := (List.mem_filter.mp (List.mem_filter.mp hm).1).1
          exact not_mem_of_mem_splitOnChar ht0 (mem_of_mem_stripChars h1)
        · exact absurd hm (by decide)
      · exact List.append_ne_nil_of_right_ne_nil _ (by decide)
  by_cases hj : joinChar ',' P = []
  · rw [if_pos hj]
    exact ⟨by decide, by decide, fun _ => rfl⟩
  · rw [if_neg hj]
    have hPne : P ≠ [] := by
      intro h0
      rw [h0] at hj
      exact hj rfl
    have hsplit : splitOnChar ',' (joinChar ',' P) = P :=
      splitOnChar_joinChar hPne fun p hp => (hmem p hp).2.2.2.1
    refine ⟨hj, ?_, ?_⟩
    · rw [hsplit]
      intro t ht
      exact ⟨(hmem t ht).1, (hmem t ht).2.1, (hmem t ht).2.2.1⟩
    · intro hall
      exfalso
      apply hPne
      rw [hP]
      refine List.filterMap_eq_nil_iff.mpr fun a ha => ?_
      rw [hf]
      simp only [if_pos (hall a ha)]

/-- C10: for every tags input, the tag string of the created article is
non-empty, every comma-separated tag in it ends with `" blog"` and
contains neither `#` nor `|`; when the input has no non-blank tag the
fixed default `"brand63 blog, style blog, new arrivals blog"` is used. -/
theorem c10_published_tags (author title body_html meta_desc tags excerpt : Str)
    (fsrc falt : Option Str) :
    (publish_article author title body_html meta_desc tags excerpt fsrc falt).tags ≠ [] ∧
    (∀ t ∈ splitOnChar ','
        (publish_article author title body_html meta_desc tags excerpt fsrc falt).tags,
      " blog".data <:+ t ∧ '#' ∉ t ∧ '|' ∉ t) ∧
    ((∀ t ∈ splitOnChar ',' tags, stripChars t = []) →
      (publish_article author title body_html meta_desc tags excerpt fsrc falt).tags
        = defaultTags) := by
  have heq : (publish_article author title body_html meta_desc tags excerpt fsrc falt).tags
      = cleanedTags tags := rfl
  rw [heq]
  exact cleanedTags_spec tags

/-- Witness for C10: a whitespace-only tags input yields the default tag
string. -/
theorem c10_published_tags_witness :
    (publish_article AUTHOR_NAME "T".data "<p>b</p>".data "md".data " , ,, ".data
        "ex".data none none).tags = defaultTags := by
  have h := c10_published_tags AUTHOR_NAME "T".data "<p>b</p>".data "md".data " , ,, ".data
    "ex".data none none
  exact h.2.2 (by decide)

/-- C2 (counterexample): on Feb 5, with the same product present in both
curated Black History collections, the seasonal tier combines the
collections without de-duplicating by identifier, and a valid
`random.sample` outcome selects the product twice — the claimed
pairwise identifier-distinctness fails. -/
theorem c2_duplicate_counterexample :
    PickRel stDupSeason (.ok (topicOf .black_history) [teeProduct, teeProduct]
      (some .black_history) stDupSeason.recentPosts) ∧
    ¬ distinctIds [teeProduct, teeProduct] :=
  ⟨pickRel_stDupSeason, by decide⟩

/-- C4 (amended): `pick_topic_and_products` never returns an empty
product sequence; when it raises an empty-result error, the seasonal
pool (if a season is active) and the store-wide freshness pool were
empty, and either no collection existed (`errNoCollections`) or the one
randomly chosen collection had no eligible product (`errNoProducts`,
naming that collection's title) — even though another collection may
still hold an image-bearing product (see the counterexample); the
messages name the failing condition, not an exhausted tier chain. -/
theorem c4_nonempty_or_error {st : Store} {out : PickOutcome} (h : PickRel st out) :
    (∀ t p s r, out = PickOutcome.ok t p s r → p ≠ []) ∧
    ((out = PickOutcome.errNoCollections ∨ ∃ ti, out = PickOutcome.errNoProducts ti) →
      newestPool st = [] ∧
      ∀ s, get_season_mode st.today = some s → seasonalPoolFor st s = []) ∧
    (out = PickOutcome.errNoCollections → get_all_collections st = []) ∧
    (∀ ti, out = PickOutcome.errNoProducts ti →
      ∃ c, c ∈ get_all_collections st ∧ c.title = ti ∧ productsFromColl st c = []) := by
  unfold PickRel at h
  rcases hseason : get_season_mode st.today with _ | s
  · rw [hseason] at h
    have h' : PickRelRest st none out := h
    obtain ⟨hok, hnp, hcol, hprod⟩ := pickRelRest_inv h'
    refine ⟨hok, fun he => ⟨hnp he, fun s hs => ?_⟩, hcol, hprod⟩
    cases hs
  · rw [hseason] at h
    by_cases hcond : seasonHandles s ≠ [] ∧ seasonalPoolFor st s ≠ []
    · have h' : ∃ picks, ChooseFreshRel (seasonalPoolFor st s) PICKS_PER_POST picks ∧
          out = .ok (topicOf s) picks (some s) st.recentPosts := by
        have hif : (if seasonHandles s ≠ [] ∧ seasonalPoolFor st s ≠ [] then
            ∃ picks, ChooseFreshRel (seasonalPoolFor st s) PICKS_PER_POST picks ∧
              out = .ok (topicOf s) picks (some s) st.recentPosts
          else PickRelRest st (some s) out) := h
        rwa [if_pos hcond] at hif
      obtain ⟨picks, hch, hout⟩ := h'
      subst hout
      refine ⟨?_, ?_, ?_, ?_⟩
      · intro t p s' r heq
        cases heq
        exact chooseFresh_ne_nil hch (by decide)
      · rintro (heq | ⟨ti, heq⟩) <;> simp at heq
      · intro heq
        simp at heq
      · intro ti heq
        simp at heq
    · have h' : PickRelRest st (some s) out := by
        have hif : (if seasonHandles s ≠ [] ∧ seasonalPoolFor st s ≠ [] then
            ∃ picks, ChooseFreshRel (seasonalPoolFor st s) PICKS_PER_POST picks ∧
              out = .ok (topicOf s) picks (some s) st.recentPosts
          else PickRelRest st (some s) out) := h
        rwa [if_neg hcond] at hif
      obtain ⟨hok, hnp, hcol, hprod⟩ := pickRelRest_inv h'
      have hpool : seasonalPoolFor st s = [] := by
        by_contra hne
        exact hcond ⟨by cases s <;> simp [seasonHandles], hne⟩
      refine ⟨hok, fun he => ⟨hnp he, fun s' hs' => ?_⟩, hcol, hprod⟩
      cases Option.some.inj hs'
      exact hpool

/-- C4 (counterexample): `stEmptyPick` still holds an image-bearing
product (in the `Full One` collection), yet the run can end in the
per-collection empty-result error because `random.choice` picked the
empty collection — refuting "fails only when no product with an image
exists anywhere". -/
theorem c4_premature_error_counterexample :
    PickRel stEmptyPick (.errNoProducts "Empty One".data) ∧
    ∃ c, c ∈ get_all_collections stEmptyPick ∧ productsFromColl stEmptyPick c ≠ [] :=
  ⟨pickRel_stEmptyPick, ⟨2, "Full One".data, "full-one".data⟩, by decide, by decide⟩

/-- Witness for C4 (amended) at the July run ending in the
per-collection error. -/
theorem c4_nonempty_or_error_witness :
    PickRel stEmptyPick (.errNoProducts "Empty One".data) ∧
    ((∀ t p s r, (PickOutcome.errNoProducts "Empty One".data) = PickOutcome.ok t p s r →
        p ≠ []) ∧
      ((PickOutcome.errNoProducts "Empty One".data) = PickOutcome.errNoCollections ∨
        (∃ ti, (PickOutcome.errNoProducts "Empty One".data) = PickOutcome.errNoProducts ti) →
        newestPool stEmptyPick = [] ∧
        ∀ s, get_season_mode stEmptyPick.today = some s →
          seasonalPoolFor stEmptyPick s = []) ∧
      ((PickOutcome.errNoProducts "Empty One".data) = PickOutcome.errNoCollections →
        get_all_collections stEmptyPick = []) ∧
      (∀ ti, (PickOutcome.errNoProducts "Empty One".data) = PickOutcome.errNoProducts ti →
        ∃ c, c ∈ get_all_collections stEmptyPick ∧ c.title = ti ∧
          productsFromColl stEmptyPick c = [])) :=
  ⟨pickRel_stEmptyPick, c4_nonempty_or_error pickRel_stEmptyPick⟩

end Brand63
